import Mathlib

/-!
Shallow embedding of the Alley Cats rule engine (src/player.py, src/card.py,
src/game.py, src/board_elements.py) in Lean 4, together with theorems that
settle the specification claims.  Python dictionaries keyed by owner names
are embedded as association lists, Python sets as duplicate-free lists, and
the random shuffle as an explicit function parameter.  Card/agenda code that
lives outside src (effects.py, agenda.py, objective_conditions.py) is
modelled from the spec where a claim needs it; each such definition says so
in its doc comment.
-/

namespace AlleyCats

/-- Cell subclasses of board_elements.py: Wall, Kiosk, Basement, the three
OwnerCell subclasses (identified by their owner_name), and the generic
traversable Cell produced by map_parser.py for blank/unknown symbols. -/
inductive CellKind where
  | wall
  | kiosk
  | basement
  | owner (owner_name : String)
  | plain
deriving DecidableEq, Repr

/-- board_elements.Cell: position plus the symbol attribute set by each
subclass constructor (Wall ".", Kiosk "K", Basement "B", StudentCell "S",
CookCell "C", LibrarianCell "L"). -/
structure Cell where
  row : Int
  col : Int
  symbol : String
  kind : CellKind
deriving DecidableEq, Repr

def isOwnerKind : CellKind → Bool
  | .owner _ => true
  | _ => false

def mkWall (r c : Int) : Cell := ⟨r, c, ".", .wall⟩
def mkKiosk (r c : Int) : Cell := ⟨r, c, "K", .kiosk⟩
def mkBasement (r c : Int) : Cell := ⟨r, c, "B", .basement⟩
def mkStudentCell (r c : Int) : Cell := ⟨r, c, "S", .owner "Student"⟩
def mkCookCell (r c : Int) : Cell := ⟨r, c, "C", .owner "Cook"⟩
def mkLibrarianCell (r c : Int) : Cell := ⟨r, c, "L", .owner "Librarian"⟩
def mkPlainCell (r c : Int) (s : String) : Cell := ⟨r, c, s, .plain⟩

/-- The trigger_condition dictionary of an ArmDelayedEffect as read from
cards.json in game.py._trigger_armed_effects: an event-type string plus the
optional cell_type_symbol match field. -/
structure TriggerCond where
  type : String
  cell_type_symbol : Option String := none
deriving DecidableEq, Repr

/-- The owner_name_from_context parameter of a triggered GainTrustEffect in
game.py lines 260-270: absent, the string "original", the string
"new_visited", or the boolean True (general case). -/
inductive OwnerFromCtx where
  | noCtx
  | original
  | new_visited
  | generalCtx
deriving DecidableEq, Repr

/-- Leaf effect descriptors appearing in the triggered_effects list of an
ArmDelayedEffect, as the descriptors occur in cards.json: the
registry-known resource and draw effect types, plus a catch-all for a type
absent from EFFECT_REGISTRY (whose lookup at game.py line 254 yields None,
so the descriptor is skipped). -/
inductive EffDesc where
  | gainFood (amount : Int)
  | gainTrust (owner_name : Option String) (owner_name_from_context : OwnerFromCtx) (amount : Int)
  | drawCards (num_cards : Nat)
  | unknownEff (type_name : String)
deriving DecidableEq, Repr

/-- Parameters of an ArmDelayedEffect as consumed by
game.py._trigger_armed_effects: trigger_condition, triggered_effects and
the self_discard_on_trigger flag. -/
structure ArmParams where
  trigger_condition : TriggerCond
  triggered_effects : List EffDesc := []
  self_discard_on_trigger : Bool := false
deriving DecidableEq, Repr

/-- Card/agenda effects the embedded game logic inspects: ArmDelayedEffect
(game.py line 228), AddPersistentCellVisitBonusEffect and
AddPersistentFoodSourceBonusEffect (game.py lines 333, 343), the leaf
resource effects used by agenda rewards, and a catch-all constructor for any
other registry type (not interpreted by the embedded code paths). -/
inductive Effect where
  | armDelayed (params : ArmParams)
  | addPersistentCellVisitBonus (owner_name_trigger : Option String)
      (bonus_type : String) (bonus_amount : Int)
  | addPersistentFoodSourceBonus (source_trigger_type : String)
      (source_trigger_owner : Option String) (bonus_food_amount : Int)
  | gainFoodE (amount : Int)
  | gainTrustE (owner_name : String) (amount : Int)
  | drawCardsE (num_cards : Nat)
  | otherEffect (type_name : String)
deriving DecidableEq, Repr

/-- The attributes_granted dictionary of card.py, restricted to the keys the
code consults: MovementBonus (player.get_movement_bonus), WallPass
(player.can_pass_through_walls) and FightBonus (player.get_fight_bonus). -/
structure AttrMap where
  movementBonus : Option Int := none
  wallPass : Option Bool := none
  fightBonus : Option Int := none
deriving DecidableEq, Repr

/-- card.Card, restricted to the fields the embedded logic reads.  Python
equality of cards is by the unique id field (Card.__eq__). -/
structure Card where
  id : String
  title : String
  effects : List Effect := []
  attributes_granted : AttrMap := {}
deriving DecidableEq, Repr

/-- Python truthiness of attributes_granted.get("MovementBonus"): absent or
zero is falsy. -/
def truthyOptInt : Option Int → Bool
  | some v => v != 0
  | none => false

/-- Objective conditions of a secret agenda.  Modelled from the spec:
objective_conditions.py is not under src/; the spec describes a closed set
of predicate variants, of which the on-owner-cell check (spec example 5)
and a food-threshold stat check (spec example 3) are embedded here. -/
inductive ObjCond where
  | playerIsOnAnyOwnerCell
  | playerFoodAtLeast (n : Int)
deriving DecidableEq, Repr

/-- agenda.AgendaCard, modelled from the spec (agenda.py is not under
src/): title, the list of objective conditions, reward effects, and the
persistence/discard flags that game.py._handle_agenda_phase reads. -/
structure AgendaCard where
  title : String
  objective_conditions : List ObjCond := []
  reward_effects : List Effect := []
  is_persistent : Bool := false
  discard_after_use : Bool := false
  discard_to_box_on_reveal : Bool := false
deriving DecidableEq, Repr

/-- An entry of player.temporary_bonuses_this_turn, restricted to the keys
the code consults (MovementBonus, WallPass). -/
structure TempBonus where
  movementBonus : Option Int := none
  wallPass : Option Bool := none
deriving DecidableEq, Repr

/-- The play-context dictionary captured when a delayed effect is armed,
restricted to the key game.py reads (played_on_owner_name). -/
structure PlayContext where
  played_on_owner_name : Option String := none
deriving DecidableEq, Repr

/-- The event_context dictionary of game.py._trigger_armed_effects: the keys
read during matching (cell_symbol, owner_name) and the two postman keys the
matcher writes for triggered-effect parameter substitution. -/
structure EventCtx where
  cell_symbol : Option String := none
  owner_name : Option String := none
  original_owner_for_postman : Option String := none
  newly_visited_owner_for_postman : Option String := none
deriving DecidableEq, Repr

def OWNER_STUDENT : String := "Student"
def OWNER_COOK : String := "Cook"
def OWNER_LIBRARIAN : String := "Librarian"
def ALL_OWNERS : List String := [OWNER_STUDENT, OWNER_COOK, OWNER_LIBRARIAN]

/-- player.Player, with dictionaries embedded as association lists and the
visited-cells set as a duplicate-free list.  Defaults mirror
Player.__init__. -/
structure Player where
  id : String
  row : Int
  col : Int
  is_human : Bool := true
  food : Int := 5
  cards_in_hand : List Card := []
  trust_levels : List (String × Int) := [("Student", 0), ("Cook", 0), ("Librarian", 0)]
  active_titles : List Card := []
  persistent_effects : List Card := []
  secret_agenda : Option AgendaCard := none
  revealed_persistent_agendas : List AgendaCard := []
  visited_special_cells_this_turn : List (Int × Int) := []
  visit_counts_this_game : List (String × Int) := [("Student", 0), ("Cook", 0), ("Librarian", 0)]
  used_card_types_log : List String := []
  action_log_this_turn : List (List (String × String)) := []
  has_one_time_reroll_ability : Bool := false
  armed_delayed_effects : List (Card × PlayContext) := []
  temporary_bonuses_this_turn : List TempBonus := []
deriving DecidableEq, Repr

/-- Player.update_position. -/
def update_position (p : Player) (new_row new_col : Int) : Player :=
  { p with row := new_row, col := new_col }

/-- Player.gain_food: negative amounts are ignored with a warning. -/
def gain_food (p : Player) (amount : Int) : Player :=
  if amount < 0 then p
  else { p with food := p.food + amount }

/-- Player.lose_food: negative amounts are ignored and reported as success;
an unaffordable amount is reported as failure with no mutation; otherwise
the food is decreased and success reported. -/
def lose_food (p : Player) (amount : Int) : Bool × Player :=
  if amount < 0 then (true, p)
  else if p.food ≥ amount then (true, { p with food := p.food - amount })
  else (false, p)

/-- Player.add_card_to_hand. -/
def add_card_to_hand (p : Player) (card : Card) : Player :=
  { p with cards_in_hand := p.cards_in_hand ++ [card] }

/-- Player.gain_trust: unknown owners and negative amounts are ignored; a
persistent effect titled "Дикий кот" or "Бешеность" silently prevents any
trust gain; otherwise the entry of that owner is incremented. -/
def gain_trust (p : Player) (owner_name : String) (amount : Int) : Player :=
  if ¬ (p.trust_levels.any (fun kv => kv.1 = owner_name)) then p
  else if amount < 0 then p
  else if p.persistent_effects.any (fun e => e.title = "Дикий кот")
       || p.persistent_effects.any (fun e => e.title = "Бешеность") then p
  else { p with trust_levels :=
          p.trust_levels.map (fun kv => if kv.1 = owner_name then (kv.1, kv.2 + amount) else kv) }

/-- Player.start_new_turn: clears the visited-cells set, the per-turn action
log and the temporary bonuses. -/
def start_new_turn (p : Player) : Player :=
  { p with visited_special_cells_this_turn := []
         , action_log_this_turn := []
         , temporary_bonuses_this_turn := [] }

/-- Player.has_visited_cell_this_turn. -/
def has_visited_cell_this_turn (p : Player) (row col : Int) : Bool :=
  decide ((row, col) ∈ p.visited_special_cells_this_turn)

/-- Player.record_cell_visit_this_turn (set.add: idempotent). -/
def record_cell_visit_this_turn (p : Player) (row col : Int) : Player :=
  if (row, col) ∈ p.visited_special_cells_this_turn then p
  else { p with visited_special_cells_this_turn :=
          p.visited_special_cells_this_turn ++ [(row, col)] }

/-- Player.get_movement_bonus: sums the MovementBonus attribute over active
titles and temporary bonuses (the persistent-effects scan is commented out
in the source, so it contributes nothing). -/
def get_movement_bonus (p : Player) : Int :=
  let bonus := p.active_titles.foldl
    (fun b t => if truthyOptInt t.attributes_granted.movementBonus
                then b + t.attributes_granted.movementBonus.getD 0 else b) 0
  p.temporary_bonuses_this_turn.foldl
    (fun b tb => if truthyOptInt tb.movementBonus then b + tb.movementBonus.getD 0 else b) bonus

/-- Player.can_pass_through_walls: a WallPass attribute equal to True on an
active title, a persistent effect, or a temporary bonus. -/
def can_pass_through_walls (p : Player) : Bool :=
  p.active_titles.any (fun t => t.attributes_granted.wallPass = some true)
  || p.persistent_effects.any (fun e => e.attributes_granted.wallPass = some true)
  || p.temporary_bonuses_this_turn.any (fun tb => tb.wallPass = some true)

/-- Player.has_active_effect_preventing_trust_gain. -/
def has_active_effect_preventing_trust_gain (p : Player) : Bool :=
  p.persistent_effects.any (fun e => e.title = "Дикий кот" || e.title = "Бешеность")

/-- Player.record_owner_visit: increments (or creates) the per-game visit
counter for the owner. -/
def record_owner_visit (p : Player) (owner_name : String) : Player :=
  if p.visit_counts_this_game.any (fun kv => kv.1 = owner_name) then
    { p with visit_counts_this_game :=
        p.visit_counts_this_game.map (fun kv => if kv.1 = owner_name then (kv.1, kv.2 + 1) else kv) }
  else
    { p with visit_counts_this_game := p.visit_counts_this_game ++ [(owner_name, 1)] }

/-- Player.add_persistent_agenda_bonus (membership guard, then append). -/
def add_persistent_agenda_bonus (p : Player) (agenda_card : AgendaCard) : Player :=
  if agenda_card ∈ p.revealed_persistent_agendas then p
  else { p with revealed_persistent_agendas := p.revealed_persistent_agendas ++ [agenda_card] }

/-- Player.add_armed_delayed_effect: a no-op (warning only) when an entry
with the same card id is already registered, otherwise appends the
(card, context) pair. -/
def add_armed_delayed_effect (p : Player) (card : Card) (context : PlayContext) : Player :=
  if ¬ (p.armed_delayed_effects.any (fun e => e.1.id = card.id)) then
    { p with armed_delayed_effects := p.armed_delayed_effects ++ [(card, context)] }
  else p

/-- Player.remove_armed_delayed_effect: drops every registry entry whose
card id equals the id of the given card. -/
def remove_armed_delayed_effect (p : Player) (card_to_remove : Card) : Player :=
  { p with armed_delayed_effects :=
      p.armed_delayed_effects.filter (fun e => e.1.id ≠ card_to_remove.id) }

/-- card.Deck: draw pile and discard pile. -/
structure Deck where
  draw_pile : List Card := []
  discard_pile : List Card := []
deriving DecidableEq, Repr

/-- Deck.reshuffle_discard_pile: if the discard pile is empty, do nothing;
otherwise move it into the draw pile, clear it, and shuffle.  The random
shuffle is passed in explicitly. -/
def reshuffle_discard_pile (shuffle : List Card → List Card) (d : Deck) : Deck :=
  if d.discard_pile.isEmpty then d
  else { draw_pile := shuffle (d.draw_pile ++ d.discard_pile), discard_pile := [] }

/-- Deck.draw: pop from the front of the draw pile, reshuffling the discard
pile into it first when the draw pile is empty; None when no card is
available. -/
def Deck.draw (shuffle : List Card → List Card) (d : Deck) : Option Card × Deck :=
  if d.draw_pile.isEmpty then
    if d.discard_pile.isEmpty then (none, d)
    else
      let d2 := reshuffle_discard_pile shuffle d
      if d2.draw_pile.isEmpty then (none, d2)
      else (d2.draw_pile.head?, { d2 with draw_pile := d2.draw_pile.tail })
  else (d.draw_pile.head?, { d with draw_pile := d.draw_pile.tail })

/-- Deck.discard: append to the discard pile. -/
def Deck.discard (d : Deck) (card : Card) : Deck :=
  { d with discard_pile := d.discard_pile ++ [card] }

/-- Deck.needs_reshuffle. -/
def needs_reshuffle (d : Deck) : Bool :=
  d.draw_pile.isEmpty && !d.discard_pile.isEmpty

/-- game.Game, restricted to the state the embedded logic touches.  The
agenda box models AgendaDeck.discard_to_box (agenda.py is not under src/;
modelled from the spec as the pile of agendas discarded to the box). -/
structure GameSt where
  board : List (List Cell)
  deck : Deck := {}
  players : List Player := []
  current_player_index : Nat := 0
  game_over : Bool := false
  winner : Option Player := none
  agenda_box : List AgendaCard := []
deriving DecidableEq, Repr

def default_player : Player := { id := "", row := 0, col := 0 }

/-- Game.get_current_player (indexing assumed in range, as in the source). -/
def get_current_player (g : GameSt) : Player :=
  g.players.getD g.current_player_index default_player

/-- Game.get_cell: None when the coordinates are out of bounds. -/
def get_cell (board : List (List Cell)) (row col : Int) : Option Cell :=
  if 0 ≤ row ∧ 0 ≤ col then
    match board[row.toNat]? with
    | some r => r[col.toNat]?
    | none => none
  else none

def WIN_TRUST_LEVEL : Int := 10

/-- Game.check_win_condition: scans the trust dictionary of the player; the first
owner whose trust has reached the threshold ends the game with that player
as winner. -/
def check_win_condition (g : GameSt) (p : Player) : Bool × GameSt :=
  match p.trust_levels.find? (fun kv => kv.2 ≥ WIN_TRUST_LEVEL) with
  | some _ => (true, { g with game_over := true, winner := some p })
  | none => (false, g)

/-- Game.player_draws_cards: draw num_cards cards one by one, stopping early
when the deck runs out. -/
def player_draws_cards (shuffle : List Card → List Card) (deck : Deck) (p : Player)
    (num_cards : Nat) : Deck × Player :=
  match num_cards with
  | 0 => (deck, p)
  | n + 1 =>
    match Deck.draw shuffle deck with
    | (some card, d2) => player_draws_cards shuffle d2 (add_card_to_hand p card) n
    | (none, d2) => (d2, p)

/-- The first effect of an armed card when it is an ArmDelayedEffect
(game.py line 228: entries whose first effect is not one are skipped). -/
def arm_first_effect? (c : Card) : Option ArmParams :=
  match c.effects with
  | Effect.armDelayed ps :: _ => some ps
  | _ => none

/-- The trigger-condition matching of game.py lines 234-247, returning the
match verdict together with the (possibly postman-augmented) event context.
Matching VisitedCellType compares the optional cell_type_symbol fields;
ParticipatedInFight always matches its own event type;
VisitedDifferentOwnerCell matches when both owner names are present,
non-empty and different, and then writes the two postman keys. -/
def entry_condition (ps : ArmParams) (play_ctx : PlayContext) (event_type : String)
    (ectx : EventCtx) : Bool × EventCtx :=
  if ps.trigger_condition.type = event_type then
    if event_type = "VisitedCellType" then
      (decide (ps.trigger_condition.cell_type_symbol = ectx.cell_symbol), ectx)
    else if event_type = "ParticipatedInFight" then (true, ectx)
    else if event_type = "VisitedDifferentOwnerCell" then
      match ectx.owner_name, play_ctx.played_on_owner_name with
      | some newly, some orig =>
        if ¬ newly.isEmpty ∧ ¬ orig.isEmpty ∧ newly ≠ orig then
          (true, { ectx with original_owner_for_postman := some orig
                           , newly_visited_owner_for_postman := some newly })
        else (false, ectx)
      | _, _ => (false, ectx)
    else (false, ectx)
  else (false, ectx)

/-- Whether a triggered-effect descriptor type resolves in EFFECT_REGISTRY
(game.py line 254): the known types resolve, an unknown type yields None
and its descriptor is skipped by the guard at line 256. -/
def registry_resolvable : EffDesc → Bool
  | .unknownEff _ => false
  | _ => true

/-- Accumulator of the main loop of game.py._trigger_armed_effects.  The
error field records the uncaught NameError raised at line 260; once set,
the loop is aborted and no later entry is processed. -/
structure TrigAcc where
  deck : Deck
  p : Player
  ectx : EventCtx
  to_remove : List Card
  error : Option String := none
deriving Repr

/-- One iteration of the loop over armed entries in
game.py._trigger_armed_effects lines 227-280.  When the trigger condition
matches, the loop over triggered_effects reaches line 260, which reads the
name GainTrustEffect; that name is never imported into game.py (the import
list at lines 13-17 omits it), so the first registry-resolvable triggered
effect raises an uncaught NameError (the per-effect try begins only at
line 272) before any effect executes and before the self-discard
collection at line 278.  A matched entry whose triggered effects are all
registry-unresolvable, or absent, passes through the loop without
executing anything and is still collected for removal when flagged. -/
def process_entry (event_type : String) (acc : TrigAcc)
    (entry : Card × PlayContext) : TrigAcc :=
  if acc.error.isSome then acc
  else
    match arm_first_effect? entry.1 with
    | none => acc
    | some ps =>
      let mc := entry_condition ps entry.2 event_type acc.ectx
      if mc.1 then
        if ps.triggered_effects.any registry_resolvable then
          { acc with ectx := mc.2
                   , error := some "NameError: name GainTrustEffect is not defined" }
        else
          { acc with ectx := mc.2
                   , to_remove := if ps.self_discard_on_trigger then
                       acc.to_remove ++ [entry.1] else acc.to_remove }
      else { acc with ectx := mc.2 }

/-- The removal loop of game.py._trigger_armed_effects lines 282-285: each
flagged card is removed from the registry (by id) and discarded. -/
def removal_loop (cards : List Card) (st : Deck × Player) : Deck × Player :=
  cards.foldl (fun st c => (Deck.discard st.1 c, remove_armed_delayed_effect st.2 c)) st

/-- Game._trigger_armed_effects: one dispatch pass over the snapshot of the
armed registry of the player.  When the pass aborts with the line-260
NameError, the exception escapes the method: the removal loop of lines
282-285 is never reached and deck and player are as they were at the
moment of the raise (no triggered effect has executed).  Otherwise the
flagged cards are removed from the registry and discarded. -/
def trigger_armed_effects (deck : Deck) (p : Player)
    (event_type : String) (ectx : EventCtx) : Option String × Deck × Player :=
  let acc := p.armed_delayed_effects.foldl (process_entry event_type)
    ⟨deck, p, ectx, [], none⟩
  match acc.error with
  | some e => (some e, acc.deck, acc.p)
  | none =>
    let r := removal_loop acc.to_remove (acc.deck, acc.p)
    (none, r.1, r.2)

/-- The persistent-agenda bonus scan of
game.py._handle_player_landing_on_cell lines 331-351. -/
def apply_agenda_bonuses (p0 : Player) (landed_owner : Option String)
    (gained_food_from_cell : Int) : Player :=
  p0.revealed_persistent_agendas.foldl (fun p ag =>
    ag.reward_effects.foldl (fun p eff =>
      match eff with
      | Effect.addPersistentCellVisitBonus trigger bonus_type bonus_amount =>
        if trigger = landed_owner then
          if bonus_type = "GainFood" ∧ bonus_amount > 0 then gain_food p bonus_amount else p
        else p
      | Effect.addPersistentFoodSourceBonus ttype towner bamount =>
        if ttype = "GainedFoodFromOwnerCell" ∧ towner = landed_owner
           ∧ gained_food_from_cell > 0 ∧ bamount > 0 then gain_food p bamount
        else p
      | _ => p) p) p0

/-- The benefit dispatch of game.py._handle_player_landing_on_cell lines
307-325: result deck, result player, owner name landed on, food gained from
the cell, and whether a benefit interaction was granted. -/
def landing_benefits (shuffle : List Card → List Card) (deck : Deck) (p : Player)
    (cell : Cell) : Deck × Player × Option String × Int × Bool :=
  match cell.kind with
  | .owner name =>
    if name = "Student" then (deck, gain_trust p "Student" 1, some name, 0, true)
    else if name = "Cook" then (deck, gain_food p 2, some name, 2, true)
    else if name = "Librarian" then
      let r := player_draws_cards shuffle deck p 1
      (r.1, r.2, some name, 0, true)
    else (deck, p, some name, 0, true)
  | .kiosk =>
    let r := player_draws_cards shuffle deck p 1
    (r.1, r.2, none, 0, true)
  | .basement => (deck, gain_food p 2, none, 2, true)
  | _ => (deck, p, none, 0, false)

/-- Game._handle_player_landing_on_cell: record owner visits, grant the cell
benefit unless a Kiosk or Basement was already visited this turn (owner
cells are exempt from that guard), mark the cell visited when a benefit was
granted, scan persistent agenda bonuses, and dispatch the
VisitedDifferentOwnerCell event to the armed-effect tracker.  The dispatch
is the last statement of the handler, so a NameError raised there escapes
the handler with the prior in-place mutations intact; the first component
carries that propagated error. -/
def handle_player_landing_on_cell (shuffle : List Card → List Card) (deck : Deck)
    (p0 : Player) (cell : Cell) : Option String × Deck × Player :=
  let p := match cell.kind with
    | .owner name => record_owner_visit p0 name
    | _ => p0
  if !(has_visited_cell_this_turn p cell.row cell.col) || isOwnerKind cell.kind then
    let b := landing_benefits shuffle deck p cell
    let deck1 := b.1
    let p1 := b.2.1
    let landed := b.2.2.1
    let gained := b.2.2.2.1
    let benefit := b.2.2.2.2
    let p2 := if benefit then record_cell_visit_this_turn p1 cell.row cell.col else p1
    let p3 := apply_agenda_bonuses p2 landed gained
    trigger_armed_effects deck1 p3 "VisitedDifferentOwnerCell" { owner_name := landed }
  else (none, deck, p)

/-- game.py run_game line 493: the movement value used for the Movement
phase is the final die roll alone — the movement-bonus line is commented
out in the source. -/
def total_movement (final_roll : Int) : Int :=
  final_roll

/-- The destination-acceptance test of game.py run_game line 506: the target
cell exists (in bounds) and its symbol is not the wall symbol. -/
def move_accepted (board : List (List Cell)) (new_r new_c : Int) : Bool :=
  match get_cell board new_r new_c with
  | some cell => cell.symbol ≠ "."
  | none => false

/-- The movement-resolution of game.py run_game lines 503-512: on an
accepted destination the position of the current player is updated and
cell-entry handling runs; otherwise the state is unchanged.  An exception
escaping the landing handler is caught by the broad except at run_game
line 513 and the loop continues with the in-place mutations kept, so the
resulting game state is the deck and player components of the handler
result in either case. -/
def attempt_movement (shuffle : List Card → List Card) (g : GameSt)
    (new_r new_c : Int) : GameSt :=
  match get_cell g.board new_r new_c with
  | some target_cell =>
    if target_cell.symbol ≠ "." then
      let cp1 := update_position (get_current_player g) new_r new_c
      let r := handle_player_landing_on_cell shuffle g.deck cp1 target_cell
      { g with deck := r.2.1, players := g.players.set g.current_player_index r.2.2 }
    else g
  | none => g

/-- The Movement phase followed by the win check of game.py run_game line
517. -/
def movement_phase (shuffle : List Card → List Card) (g : GameSt)
    (new_r new_c : Int) : GameSt :=
  let g1 := attempt_movement shuffle g new_r new_c
  (check_win_condition g1 (get_current_player g1)).2

/-- Evaluation of one objective condition.  Modelled from the spec:
objective_conditions.py is not under src/; the on-owner-cell variant
consults the player position and the board, the stat variant compares the
player food against the threshold. -/
def ObjCond.is_met (cond : ObjCond) (p : Player) (board : List (List Cell)) : Bool :=
  match cond with
  | .playerIsOnAnyOwnerCell =>
    match get_cell board p.row p.col with
    | some cell => isOwnerKind cell.kind
    | none => false
  | .playerFoodAtLeast n => p.food ≥ n

/-- Modelled from the spec: AgendaCard.check_objective (agenda.py is not
under src/) — the objective is satisfied iff every condition in the list
evaluates true at reveal-attempt time (conjunction). -/
def check_objective (a : AgendaCard) (p : Player) (board : List (List Cell)) : Bool :=
  a.objective_conditions.all (fun c => c.is_met p board)

/-- Execution of one agenda reward effect.  Modelled from the spec:
AgendaCard.apply_reward (agenda.py) and the effect classes (effects.py) are
not under src/; resource rewards apply the player methods, DrawCards
delegates to the deck, and the AddPersistent* reward effects act passively
through the landing scan, so they mutate nothing here. -/
def exec_reward_effect (shuffle : List Card → List Card) (st : Deck × Player)
    (eff : Effect) : Deck × Player :=
  match eff with
  | .gainFoodE amount => (st.1, gain_food st.2 amount)
  | .gainTrustE owner amount => (st.1, gain_trust st.2 owner amount)
  | .drawCardsE n => player_draws_cards shuffle st.1 st.2 n
  | _ => st

/-- Modelled from the spec: AgendaCard.apply_reward (agenda.py is not under
src/) — applies each reward effect in order. -/
def apply_reward (shuffle : List Card → List Card) (deck : Deck) (p : Player)
    (a : AgendaCard) : Deck × Player :=
  a.reward_effects.foldl (exec_reward_effect shuffle) (deck, p)

/-- Game._handle_agenda_phase, with the reveal decision passed in (the
console prompt is a decision-agent boundary).  On a successful objective
check the reward is applied, the secret slot cleared, the card routed per
its flags, and the win condition checked; on a failed check, and when no
reveal is attempted, nothing is mutated. -/
def handle_agenda_phase (shuffle : List Card → List Card) (g : GameSt)
    (attempt_reveal : Bool) : GameSt :=
  let cp := get_current_player g
  match cp.secret_agenda with
  | none => g
  | some agenda =>
    if attempt_reveal then
      if check_objective agenda cp g.board then
        let r := apply_reward shuffle g.deck cp agenda
        let cp2 := { r.2 with secret_agenda := none }
        let cp3 := if agenda.is_persistent ∧ ¬ agenda.discard_after_use then
            add_persistent_agenda_bonus cp2 agenda
          else cp2
        let box := if agenda.is_persistent ∧ ¬ agenda.discard_after_use then g.agenda_box
          else if agenda.discard_to_box_on_reveal then g.agenda_box ++ [agenda]
          else g.agenda_box
        let g1 := { g with deck := r.1, agenda_box := box
                         , players := g.players.set g.current_player_index cp3 }
        (check_win_condition g1 cp3).2
      else g
    else g

/-- Game.next_turn: advance the player index cyclically and reset the new
turn-specific state of the new current player.  (The end-of-turn accumulation-
condition probe of the ending player touches only condition-internal state,
which the embedded ObjCond variants do not carry.) -/
def next_turn (g : GameSt) : GameSt :=
  let idx := (g.current_player_index + 1) % g.players.length
  let np := start_new_turn (g.players.getD idx default_player)
  { g with current_player_index := idx, players := g.players.set idx np }

/-! Helper lemmas about the embedded operations. -/

theorem foldl_preserve {α β γ : Type} (f : α → β → α) (proj : α → γ)
    (h : ∀ a b, proj (f a b) = proj a) (l : List β) (a : α) :
    proj (List.foldl f a l) = proj a := by
  induction l generalizing a with
  | nil => rfl
  | cons x xs ih => rw [List.foldl_cons, ih, h]

theorem getD_set_self {α : Type} (l : List α) (i : Nat) (a d : α) (h : i < l.length) :
    (l.set i a).getD i d = a := by
  induction l generalizing i with
  | nil => simp at h
  | cons x xs ih =>
    cases i with
    | zero => rfl
    | succ n => simpa [List.set, List.getD] using ih n (by simpa using h)

@[simp] theorem gain_food_trust (p : Player) (a : Int) :
    (gain_food p a).trust_levels = p.trust_levels := by
  unfold gain_food; split <;> rfl

@[simp] theorem gain_food_armed (p : Player) (a : Int) :
    (gain_food p a).armed_delayed_effects = p.armed_delayed_effects := by
  unfold gain_food; split <;> rfl

@[simp] theorem gain_food_persistent (p : Player) (a : Int) :
    (gain_food p a).persistent_effects = p.persistent_effects := by
  unfold gain_food; split <;> rfl

@[simp] theorem gain_food_revealed (p : Player) (a : Int) :
    (gain_food p a).revealed_persistent_agendas = p.revealed_persistent_agendas := by
  unfold gain_food; split <;> rfl

@[simp] theorem gain_food_visited (p : Player) (a : Int) :
    (gain_food p a).visited_special_cells_this_turn = p.visited_special_cells_this_turn := by
  unfold gain_food; split <;> rfl

@[simp] theorem gain_food_hand (p : Player) (a : Int) :
    (gain_food p a).cards_in_hand = p.cards_in_hand := by
  unfold gain_food; split <;> rfl

@[simp] theorem gain_trust_food (p : Player) (o : String) (a : Int) :
    (gain_trust p o a).food = p.food := by
  unfold gain_trust; split <;> [rfl; (split <;> [rfl; (split <;> rfl)])]

@[simp] theorem gain_trust_armed (p : Player) (o : String) (a : Int) :
    (gain_trust p o a).armed_delayed_effects = p.armed_delayed_effects := by
  unfold gain_trust; split <;> [rfl; (split <;> [rfl; (split <;> rfl)])]

@[simp] theorem gain_trust_persistent (p : Player) (o : String) (a : Int) :
    (gain_trust p o a).persistent_effects = p.persistent_effects := by
  unfold gain_trust; split <;> [rfl; (split <;> [rfl; (split <;> rfl)])]

@[simp] theorem gain_trust_revealed (p : Player) (o : String) (a : Int) :
    (gain_trust p o a).revealed_persistent_agendas = p.revealed_persistent_agendas := by
  unfold gain_trust; split <;> [rfl; (split <;> [rfl; (split <;> rfl)])]

@[simp] theorem gain_trust_visited (p : Player) (o : String) (a : Int) :
    (gain_trust p o a).visited_special_cells_this_turn
      = p.visited_special_cells_this_turn := by
  unfold gain_trust; split <;> [rfl; (split <;> [rfl; (split <;> rfl)])]

@[simp] theorem gain_trust_hand (p : Player) (o : String) (a : Int) :
    (gain_trust p o a).cards_in_hand = p.cards_in_hand := by
  unfold gain_trust; split <;> [rfl; (split <;> [rfl; (split <;> rfl)])]

/-- A trust-gain-prevention effect makes gain_trust a complete no-op. -/
theorem gain_trust_noop (p : Player) (o : String) (a : Int)
    (h : p.persistent_effects.any (fun e => e.title = "Дикий кот") = true
       ∨ p.persistent_effects.any (fun e => e.title = "Бешеность") = true) :
    gain_trust p o a = p := by
  unfold gain_trust
  split
  · rfl
  · split
    · rfl
    · rw [if_pos]
      rcases h with h | h <;> simp [h]

@[simp] theorem add_card_trust (p : Player) (c : Card) :
    (add_card_to_hand p c).trust_levels = p.trust_levels := rfl

@[simp] theorem add_card_armed (p : Player) (c : Card) :
    (add_card_to_hand p c).armed_delayed_effects = p.armed_delayed_effects := rfl

@[simp] theorem add_card_persistent (p : Player) (c : Card) :
    (add_card_to_hand p c).persistent_effects = p.persistent_effects := rfl

@[simp] theorem add_card_revealed (p : Player) (c : Card) :
    (add_card_to_hand p c).revealed_persistent_agendas = p.revealed_persistent_agendas := rfl

@[simp] theorem add_card_visited (p : Player) (c : Card) :
    (add_card_to_hand p c).visited_special_cells_this_turn
      = p.visited_special_cells_this_turn := rfl

@[simp] theorem add_card_food (p : Player) (c : Card) :
    (add_card_to_hand p c).food = p.food := rfl

@[simp] theorem draws_trust (sh : List Card → List Card) (d : Deck) (p : Player) (n : Nat) :
    (player_draws_cards sh d p n).2.trust_levels = p.trust_levels := by
  induction n generalizing d p with
  | zero => rfl
  | succ m ih =>
    unfold player_draws_cards
    split
    · rw [ih]; rfl
    · rfl

@[simp] theorem draws_armed (sh : List Card → List Card) (d : Deck) (p : Player) (n : Nat) :
    (player_draws_cards sh d p n).2.armed_delayed_effects = p.armed_delayed_effects := by
  induction n generalizing d p with
  | zero => rfl
  | succ m ih =>
    unfold player_draws_cards
    split
    · rw [ih]; rfl
    · rfl

@[simp] theorem draws_persistent (sh : List Card → List Card) (d : Deck) (p : Player) (n : Nat) :
    (player_draws_cards sh d p n).2.persistent_effects = p.persistent_effects := by
  induction n generalizing d p with
  | zero => rfl
  | succ m ih =>
    unfold player_draws_cards
    split
    · rw [ih]; rfl
    · rfl

@[simp] theorem draws_revealed (sh : List Card → List Card) (d : Deck) (p : Player) (n : Nat) :
    (player_draws_cards sh d p n).2.revealed_persistent_agendas
      = p.revealed_persistent_agendas := by
  induction n generalizing d p with
  | zero => rfl
  | succ m ih =>
    unfold player_draws_cards
    split
    · rw [ih]; rfl
    · rfl

@[simp] theorem draws_visited (sh : List Card → List Card) (d : Deck) (p : Player) (n : Nat) :
    (player_draws_cards sh d p n).2.visited_special_cells_this_turn
      = p.visited_special_cells_this_turn := by
  induction n generalizing d p with
  | zero => rfl
  | succ m ih =>
    unfold player_draws_cards
    split
    · rw [ih]; rfl
    · rfl

@[simp] theorem draws_food (sh : List Card → List Card) (d : Deck) (p : Player) (n : Nat) :
    (player_draws_cards sh d p n).2.food = p.food := by
  induction n generalizing d p with
  | zero => rfl
  | succ m ih =>
    unfold player_draws_cards
    split
    · rw [ih]; rfl
    · rfl

@[simp] theorem record_owner_trust (p : Player) (o : String) :
    (record_owner_visit p o).trust_levels = p.trust_levels := by
  unfold record_owner_visit; split <;> rfl

@[simp] theorem record_owner_armed (p : Player) (o : String) :
    (record_owner_visit p o).armed_delayed_effects = p.armed_delayed_effects := by
  unfold record_owner_visit; split <;> rfl

@[simp] theorem record_owner_persistent (p : Player) (o : String) :
    (record_owner_visit p o).persistent_effects = p.persistent_effects := by
  unfold record_owner_visit; split <;> rfl

@[simp] theorem record_owner_revealed (p : Player) (o : String) :
    (record_owner_visit p o).revealed_persistent_agendas
      = p.revealed_persistent_agendas := by
  unfold record_owner_visit; split <;> rfl

@[simp] theorem record_owner_visited (p : Player) (o : String) :
    (record_owner_visit p o).visited_special_cells_this_turn
      = p.visited_special_cells_this_turn := by
  unfold record_owner_visit; split <;> rfl

@[simp] theorem record_owner_food (p : Player) (o : String) :
    (record_owner_visit p o).food = p.food := by
  unfold record_owner_visit; split <;> rfl

@[simp] theorem record_owner_hand (p : Player) (o : String) :
    (record_owner_visit p o).cards_in_hand = p.cards_in_hand := by
  unfold record_owner_visit; split <;> rfl

@[simp] theorem record_visit_trust (p : Player) (r c : Int) :
    (record_cell_visit_this_turn p r c).trust_levels = p.trust_levels := by
  unfold record_cell_visit_this_turn; split <;> rfl

@[simp] theorem record_visit_armed (p : Player) (r c : Int) :
    (record_cell_visit_this_turn p r c).armed_delayed_effects = p.armed_delayed_effects := by
  unfold record_cell_visit_this_turn; split <;> rfl

@[simp] theorem record_visit_persistent (p : Player) (r c : Int) :
    (record_cell_visit_this_turn p r c).persistent_effects = p.persistent_effects := by
  unfold record_cell_visit_this_turn; split <;> rfl

@[simp] theorem record_visit_revealed (p : Player) (r c : Int) :
    (record_cell_visit_this_turn p r c).revealed_persistent_agendas
      = p.revealed_persistent_agendas := by
  unfold record_cell_visit_this_turn; split <;> rfl

@[simp] theorem record_visit_food (p : Player) (r c : Int) :
    (record_cell_visit_this_turn p r c).food = p.food := by
  unfold record_cell_visit_this_turn; split <;> rfl

@[simp] theorem record_visit_hand (p : Player) (r c : Int) :
    (record_cell_visit_this_turn p r c).cards_in_hand = p.cards_in_hand := by
  unfold record_cell_visit_this_turn; split <;> rfl

theorem apply_bonuses_proj {γ : Type} (proj : Player → γ)
    (hfood : ∀ p a, proj (gain_food p a) = proj p)
    (p : Player) (lo : Option String) (gf : Int) :
    proj (apply_agenda_bonuses p lo gf) = proj p := by
  unfold apply_agenda_bonuses
  refine foldl_preserve _ _ (fun a b => ?_) _ _
  refine foldl_preserve _ _ (fun a e => ?_) _ _
  cases e <;> simp only
  · split
    · split
      · exact hfood _ _
      · rfl
    · rfl
  · split
    · exact hfood _ _
    · rfl

@[simp] theorem apply_bonuses_trust (p : Player) (lo : Option String) (gf : Int) :
    (apply_agenda_bonuses p lo gf).trust_levels = p.trust_levels :=
  apply_bonuses_proj _ (fun p a => gain_food_trust p a) p lo gf

@[simp] theorem apply_bonuses_armed (p : Player) (lo : Option String) (gf : Int) :
    (apply_agenda_bonuses p lo gf).armed_delayed_effects = p.armed_delayed_effects :=
  apply_bonuses_proj _ (fun p a => gain_food_armed p a) p lo gf

@[simp] theorem apply_bonuses_persistent (p : Player) (lo : Option String) (gf : Int) :
    (apply_agenda_bonuses p lo gf).persistent_effects = p.persistent_effects :=
  apply_bonuses_proj _ (fun p a => gain_food_persistent p a) p lo gf

@[simp] theorem apply_bonuses_visited (p : Player) (lo : Option String) (gf : Int) :
    (apply_agenda_bonuses p lo gf).visited_special_cells_this_turn
      = p.visited_special_cells_this_turn :=
  apply_bonuses_proj _ (fun p a => gain_food_visited p a) p lo gf

@[simp] theorem apply_bonuses_hand (p : Player) (lo : Option String) (gf : Int) :
    (apply_agenda_bonuses p lo gf).cards_in_hand = p.cards_in_hand :=
  apply_bonuses_proj _ (fun p a => gain_food_hand p a) p lo gf

/-- When the revealed-agenda list of a player is empty the bonus scan is the
identity. -/
theorem apply_bonuses_nil (p : Player) (lo : Option String) (gf : Int)
    (h : p.revealed_persistent_agendas = []) : apply_agenda_bonuses p lo gf = p := by
  unfold apply_agenda_bonuses
  rw [h]
  rfl

/-- When the armed registry of a player is empty the dispatch pass raises
nothing and is the identity on deck and player. -/
theorem trigger_armed_effects_nil (d : Deck) (p : Player)
    (et : String) (ectx : EventCtx) (h : p.armed_delayed_effects = []) :
    trigger_armed_effects d p et ectx = (none, d, p) := by
  unfold trigger_armed_effects
  rw [h]
  rfl

@[simp] theorem has_visited_true (p : Player) (r c : Int)
    (h : (r, c) ∈ p.visited_special_cells_this_turn) :
    has_visited_cell_this_turn p r c = true := by
  simp [has_visited_cell_this_turn, h]

@[simp] theorem has_visited_false (p : Player) (r c : Int)
    (h : (r, c) ∉ p.visited_special_cells_this_turn) :
    has_visited_cell_this_turn p r c = false := by
  simp [has_visited_cell_this_turn, h]

@[simp] theorem mkStudentCell_kind (r c : Int) : (mkStudentCell r c).kind = .owner "Student" := rfl
@[simp] theorem mkStudentCell_row (r c : Int) : (mkStudentCell r c).row = r := rfl
@[simp] theorem mkStudentCell_col (r c : Int) : (mkStudentCell r c).col = c := rfl
@[simp] theorem mkCookCell_kind (r c : Int) : (mkCookCell r c).kind = .owner "Cook" := rfl
@[simp] theorem mkCookCell_row (r c : Int) : (mkCookCell r c).row = r := rfl
@[simp] theorem mkCookCell_col (r c : Int) : (mkCookCell r c).col = c := rfl
@[simp] theorem mkLibrarianCell_kind (r c : Int) : (mkLibrarianCell r c).kind = .owner "Librarian" := rfl
@[simp] theorem mkLibrarianCell_row (r c : Int) : (mkLibrarianCell r c).row = r := rfl
@[simp] theorem mkLibrarianCell_col (r c : Int) : (mkLibrarianCell r c).col = c := rfl
@[simp] theorem mkKiosk_kind (r c : Int) : (mkKiosk r c).kind = .kiosk := rfl
@[simp] theorem mkKiosk_row (r c : Int) : (mkKiosk r c).row = r := rfl
@[simp] theorem mkKiosk_col (r c : Int) : (mkKiosk r c).col = c := rfl
@[simp] theorem mkBasement_kind (r c : Int) : (mkBasement r c).kind = .basement := rfl
@[simp] theorem mkBasement_row (r c : Int) : (mkBasement r c).row = r := rfl
@[simp] theorem mkBasement_col (r c : Int) : (mkBasement r c).col = c := rfl

@[simp] theorem landing_benefits_student (sh : List Card → List Card) (deck : Deck)
    (p : Player) (r c : Int) :
    landing_benefits sh deck p (mkStudentCell r c)
      = (deck, gain_trust p "Student" 1, some "Student", 0, true) := by
  simp [landing_benefits, mkStudentCell]

@[simp] theorem landing_benefits_cook (sh : List Card → List Card) (deck : Deck)
    (p : Player) (r c : Int) :
    landing_benefits sh deck p (mkCookCell r c)
      = (deck, gain_food p 2, some "Cook", 2, true) := by
  simp [landing_benefits, mkCookCell]

@[simp] theorem landing_benefits_librarian (sh : List Card → List Card) (deck : Deck)
    (p : Player) (r c : Int) :
    landing_benefits sh deck p (mkLibrarianCell r c)
      = ((player_draws_cards sh deck p 1).1, (player_draws_cards sh deck p 1).2,
         some "Librarian", 0, true) := by
  simp [landing_benefits, mkLibrarianCell]

@[simp] theorem landing_benefits_kiosk (sh : List Card → List Card) (deck : Deck)
    (p : Player) (r c : Int) :
    landing_benefits sh deck p (mkKiosk r c)
      = ((player_draws_cards sh deck p 1).1, (player_draws_cards sh deck p 1).2,
         none, 0, true) := by
  simp only [landing_benefits, mkKiosk]

@[simp] theorem landing_benefits_basement (sh : List Card → List Card) (deck : Deck)
    (p : Player) (r c : Int) :
    landing_benefits sh deck p (mkBasement r c)
      = (deck, gain_food p 2, none, 2, true) := by
  simp only [landing_benefits, mkBasement]

/-- Landing on the Student cell reduces to the owner-visit record, the
trust grant and the visited mark (players without revealed agendas or armed
effects). -/
theorem handle_student_reduce (sh : List Card → List Card) (deck : Deck) (p : Player)
    (r c : Int) (harm : p.armed_delayed_effects = [])
    (hrev : p.revealed_persistent_agendas = []) :
    handle_player_landing_on_cell sh deck p (mkStudentCell r c)
      = (none, deck, record_cell_visit_this_turn
          (gain_trust (record_owner_visit p "Student") "Student" 1) r c) := by
  have h3 : apply_agenda_bonuses (record_cell_visit_this_turn
      (gain_trust (record_owner_visit p "Student") "Student" 1) r c) (some "Student") 0
      = record_cell_visit_this_turn
          (gain_trust (record_owner_visit p "Student") "Student" 1) r c :=
    apply_bonuses_nil _ _ _ (by simp [hrev])
  have h4 : trigger_armed_effects deck (record_cell_visit_this_turn
      (gain_trust (record_owner_visit p "Student") "Student" 1) r c)
      "VisitedDifferentOwnerCell" { owner_name := some "Student" }
      = (none, deck, record_cell_visit_this_turn
          (gain_trust (record_owner_visit p "Student") "Student" 1) r c) :=
    trigger_armed_effects_nil _ _ _ _ (by simp [harm])
  unfold handle_player_landing_on_cell
  simp [isOwnerKind, h3, h4]

/-- Landing on the Cook cell reduces to the owner-visit record, the food
grant and the visited mark. -/
theorem handle_cook_reduce (sh : List Card → List Card) (deck : Deck) (p : Player)
    (r c : Int) (harm : p.armed_delayed_effects = [])
    (hrev : p.revealed_persistent_agendas = []) :
    handle_player_landing_on_cell sh deck p (mkCookCell r c)
      = (none, deck, record_cell_visit_this_turn
          (gain_food (record_owner_visit p "Cook") 2) r c) := by
  have h3 : apply_agenda_bonuses (record_cell_visit_this_turn
      (gain_food (record_owner_visit p "Cook") 2) r c) (some "Cook") 2
      = record_cell_visit_this_turn (gain_food (record_owner_visit p "Cook") 2) r c :=
    apply_bonuses_nil _ _ _ (by simp [hrev])
  have h4 : trigger_armed_effects deck (record_cell_visit_this_turn
      (gain_food (record_owner_visit p "Cook") 2) r c)
      "VisitedDifferentOwnerCell" { owner_name := some "Cook" }
      = (none, deck, record_cell_visit_this_turn
          (gain_food (record_owner_visit p "Cook") 2) r c) :=
    trigger_armed_effects_nil _ _ _ _ (by simp [harm])
  unfold handle_player_landing_on_cell
  simp [isOwnerKind, h3, h4]

/-- Landing on the Librarian cell reduces to the owner-visit record, the
card draw and the visited mark. -/
theorem handle_librarian_reduce (sh : List Card → List Card) (deck : Deck) (p : Player)
    (r c : Int) (harm : p.armed_delayed_effects = [])
    (hrev : p.revealed_persistent_agendas = []) :
    handle_player_landing_on_cell sh deck p (mkLibrarianCell r c)
      = (none, (player_draws_cards sh deck (record_owner_visit p "Librarian") 1).1,
         record_cell_visit_this_turn
           (player_draws_cards sh deck (record_owner_visit p "Librarian") 1).2 r c) := by
  have h3 : apply_agenda_bonuses (record_cell_visit_this_turn
      (player_draws_cards sh deck (record_owner_visit p "Librarian") 1).2 r c)
      (some "Librarian") 0
      = record_cell_visit_this_turn
          (player_draws_cards sh deck (record_owner_visit p "Librarian") 1).2 r c :=
    apply_bonuses_nil _ _ _ (by simp [hrev])
  have h4 : trigger_armed_effects
      (player_draws_cards sh deck (record_owner_visit p "Librarian") 1).1
      (record_cell_visit_this_turn
        (player_draws_cards sh deck (record_owner_visit p "Librarian") 1).2 r c)
      "VisitedDifferentOwnerCell" { owner_name := some "Librarian" }
      = (none, (player_draws_cards sh deck (record_owner_visit p "Librarian") 1).1,
         record_cell_visit_this_turn
           (player_draws_cards sh deck (record_owner_visit p "Librarian") 1).2 r c) :=
    trigger_armed_effects_nil _ _ _ _ (by simp [harm])
  unfold handle_player_landing_on_cell
  simp [isOwnerKind, h3, h4]

/-- Landing on an already-visited Kiosk this turn is a no-op. -/
theorem handle_kiosk_visited (sh : List Card → List Card) (deck : Deck) (p : Player)
    (r c : Int) (hv : (r, c) ∈ p.visited_special_cells_this_turn) :
    handle_player_landing_on_cell sh deck p (mkKiosk r c) = (none, deck, p) := by
  unfold handle_player_landing_on_cell
  simp [isOwnerKind, hv]

/-- Landing on an already-visited Basement this turn is a no-op. -/
theorem handle_basement_visited (sh : List Card → List Card) (deck : Deck) (p : Player)
    (r c : Int) (hv : (r, c) ∈ p.visited_special_cells_this_turn) :
    handle_player_landing_on_cell sh deck p (mkBasement r c) = (none, deck, p) := by
  unfold handle_player_landing_on_cell
  simp [isOwnerKind, hv]

/-- First landing on a Kiosk this turn draws a card and marks the cell
visited. -/
theorem handle_kiosk_fresh (sh : List Card → List Card) (deck : Deck) (p : Player)
    (r c : Int) (hv : (r, c) ∉ p.visited_special_cells_this_turn)
    (harm : p.armed_delayed_effects = []) (hrev : p.revealed_persistent_agendas = []) :
    handle_player_landing_on_cell sh deck p (mkKiosk r c)
      = (none, (player_draws_cards sh deck p 1).1,
         record_cell_visit_this_turn (player_draws_cards sh deck p 1).2 r c) := by
  have h3 : apply_agenda_bonuses
      (record_cell_visit_this_turn (player_draws_cards sh deck p 1).2 r c) none 0
      = record_cell_visit_this_turn (player_draws_cards sh deck p 1).2 r c :=
    apply_bonuses_nil _ _ _ (by simp [hrev])
  have h4 : trigger_armed_effects (player_draws_cards sh deck p 1).1
      (record_cell_visit_this_turn (player_draws_cards sh deck p 1).2 r c)
      "VisitedDifferentOwnerCell" { owner_name := none }
      = (none, (player_draws_cards sh deck p 1).1,
         record_cell_visit_this_turn (player_draws_cards sh deck p 1).2 r c) :=
    trigger_armed_effects_nil _ _ _ _ (by simp [harm])
  unfold handle_player_landing_on_cell
  simp [isOwnerKind, hv, h3, h4]

/-- First landing on a Basement this turn gains 2 food and marks the cell
visited. -/
theorem handle_basement_fresh (sh : List Card → List Card) (deck : Deck) (p : Player)
    (r c : Int) (hv : (r, c) ∉ p.visited_special_cells_this_turn)
    (harm : p.armed_delayed_effects = []) (hrev : p.revealed_persistent_agendas = []) :
    handle_player_landing_on_cell sh deck p (mkBasement r c)
      = (none, deck, record_cell_visit_this_turn (gain_food p 2) r c) := by
  have h3 : apply_agenda_bonuses
      (record_cell_visit_this_turn (gain_food p 2) r c) none 2
      = record_cell_visit_this_turn (gain_food p 2) r c :=
    apply_bonuses_nil _ _ _ (by simp [hrev])
  have h4 : trigger_armed_effects deck
      (record_cell_visit_this_turn (gain_food p 2) r c)
      "VisitedDifferentOwnerCell" { owner_name := none }
      = (none, deck, record_cell_visit_this_turn (gain_food p 2) r c) :=
    trigger_armed_effects_nil _ _ _ _ (by simp [harm])
  unfold handle_player_landing_on_cell
  simp [isOwnerKind, hv, h3, h4]

/-- Drawing one card from a deck whose draw pile is non-empty pops its front
card into the hand. -/
theorem draws_one (sh : List Card → List Card) (deck : Deck) (p : Player)
    (card0 : Card) (rest : List Card) (hpile : deck.draw_pile = card0 :: rest) :
    player_draws_cards sh deck p 1
      = ({ deck with draw_pile := rest }, add_card_to_hand p card0) := by
  have hdraw : Deck.draw sh deck = (some card0, { deck with draw_pile := rest }) := by
    rw [Deck.draw, if_neg (by simp [hpile])]
    simp [hpile]
  show (match Deck.draw sh deck with
    | (some card, d2) => player_draws_cards sh d2 (add_card_to_hand p card) 0
    | (none, d2) => (d2, p)) = _
  rw [hdraw]
  rfl

/-- The trust-map shape after the Student grant. -/
theorem gain_trust_student_step (p : Player) (s0 c0 l0 : Int)
    (htr : p.trust_levels = [("Student", s0), ("Cook", c0), ("Librarian", l0)])
    (hdk : p.persistent_effects.any (fun e => e.title = "Дикий кот") = false)
    (hbs : p.persistent_effects.any (fun e => e.title = "Бешеность") = false) :
    (gain_trust p "Student" 1).trust_levels
      = [("Student", s0 + 1), ("Cook", c0), ("Librarian", l0)] := by
  rw [gain_trust, if_neg (by simp [htr]), if_neg (by norm_num), if_neg (by simp [hdk, hbs])]
  simp [htr]

/-! Sample concrete values used by witnesses and counterexamples. -/

def cardA : Card := { id := "a1", title := "Поймал мышку" }
def cardB : Card := { id := "b1", title := "Сбегать в ларёк" }

/-- A title card granting a movement bonus of 2. -/
def title_swift : Card :=
  { id := "t1", title := "Быстрые лапки", attributes_granted := { movementBonus := some 2 } }

/-- A title card granting the wall-pass capability. -/
def title_ghost : Card :=
  { id := "t2", title := "Проныра", attributes_granted := { wallPass := some true } }

/-- A persistent-effect card that prevents trust gain. -/
def effect_wild : Card := { id := "e1", title := "Дикий кот" }

/-- C2: the claim says the movement value equals the die roll plus the sum
of the movement-bonus attributes of the player.  In run_game the bonus line is
commented out (marked TODO), so the movement value is the bare roll: for a
player holding a title with MovementBonus 2 and a roll of 3, the code moves
3 spaces while the claim (and the evident intent, given the implemented
get_movement_bonus) says 5. -/
theorem C2_movement_bonus_not_added :
    total_movement 3 = 3
    ∧ get_movement_bonus { id := "P", row := 0, col := 0, active_titles := [title_swift] } = 2
    ∧ total_movement 3
        ≠ 3 + get_movement_bonus { id := "P", row := 0, col := 0, active_titles := [title_swift] } := by
  refine ⟨rfl, by decide, by decide⟩

/-- A sample player with 5 food. -/
def p9 : Player := { id := "P9", row := 0, col := 0, food := 5 }

/-- C9 counterexample: the claim quantifies over every amount, but for the
negative amount -1 the player has at least the amount (5 ≥ -1), yet
lose_food reports success without decreasing the food by that amount. -/
theorem C9_negative_amount_counterexample :
    lose_food p9 (-1) = (true, p9)
    ∧ p9.food = 5
    ∧ (lose_food p9 (-1)).2.food ≠ p9.food - (-1) := by
  refine ⟨by decide, by decide, by decide⟩

/-- C9 (amended): for nonnegative amounts, losing more food than held is
reported as a boolean failure with no mutation, and an affordable loss
decreases the food by exactly the amount with success reported; a negative
amount is ignored and reported as success with the food unchanged. -/
theorem C9_lose_food_amended (p : Player) (amount : Int) :
    (amount < 0 → lose_food p amount = (true, p))
    ∧ (0 ≤ amount → amount ≤ p.food →
        lose_food p amount = (true, { p with food := p.food - amount }))
    ∧ (0 ≤ amount → p.food < amount → lose_food p amount = (false, p)) := by
  refine ⟨fun h => ?_, fun h0 hle => ?_, fun h0 hlt => ?_⟩
  · rw [lose_food, if_pos h]
  · rw [lose_food, if_neg (by omega), if_pos (by omega)]
  · rw [lose_food, if_neg (by omega), if_neg (by omega)]

theorem C9_lose_food_amended_witness :
    lose_food p9 7 = (false, p9)
    ∧ lose_food p9 2 = (true, { p9 with food := p9.food - 2 }) :=
  ⟨(C9_lose_food_amended p9 7).2.2 (by decide) (by decide),
   (C9_lose_food_amended p9 2).2.1 (by decide) (by decide)⟩

/-- C8: arming a delayed effect whose card id is already registered is a
rejected no-op, otherwise the pair is appended; consequently both arming
and removal preserve the invariant that the registry holds no two entries
with the same card id. -/
theorem C8_arm_registry_no_duplicate_ids (p : Player) (card : Card) (context : PlayContext) :
    (p.armed_delayed_effects.any (fun e => e.1.id = card.id) = true →
        add_armed_delayed_effect p card context = p)
    ∧ (p.armed_delayed_effects.any (fun e => e.1.id = card.id) = false →
        (add_armed_delayed_effect p card context).armed_delayed_effects
          = p.armed_delayed_effects ++ [(card, context)])
    ∧ ((p.armed_delayed_effects.map (fun e => e.1.id)).Nodup →
        ((add_armed_delayed_effect p card context).armed_delayed_effects.map
          (fun e => e.1.id)).Nodup)
    ∧ ((p.armed_delayed_effects.map (fun e => e.1.id)).Nodup →
        ((remove_armed_delayed_effect p card).armed_delayed_effects.map
          (fun e => e.1.id)).Nodup) := by
  refine ⟨fun h => ?_, fun h => ?_, fun hnd => ?_, fun hnd => ?_⟩
  · rw [add_armed_delayed_effect, if_neg (by simp [h])]
  · rw [add_armed_delayed_effect, if_pos (by simp [h])]
  · by_cases h : p.armed_delayed_effects.any (fun e => e.1.id = card.id) = true
    · rw [add_armed_delayed_effect, if_neg (by simp [h])]
      exact hnd
    · rw [add_armed_delayed_effect, if_pos h]
      rw [List.map_append, List.nodup_append]
      refine ⟨hnd, by simp, ?_⟩
      intro x hx
      simp only [List.mem_map] at hx
      obtain ⟨e, he, rfl⟩ := hx
      simp only [List.map_cons, List.map_nil, List.mem_singleton]
      intro hc
      exact h (List.any_eq_true.mpr ⟨e, he, by simp [hc]⟩)
  · exact ((List.filter_sublist _).map _).nodup hnd

theorem C8_arm_registry_witness :
    (add_armed_delayed_effect
        { id := "P8", row := 0, col := 0, armed_delayed_effects := [(cardA, {})] }
        cardA { played_on_owner_name := some "Cook" })
      = { id := "P8", row := 0, col := 0, armed_delayed_effects := [(cardA, {})] }
    ∧ (add_armed_delayed_effect
        { id := "P8", row := 0, col := 0, armed_delayed_effects := [(cardA, {})] }
        cardB {}).armed_delayed_effects = [(cardA, {}), (cardB, {})] :=
  ⟨(C8_arm_registry_no_duplicate_ids
      { id := "P8", row := 0, col := 0, armed_delayed_effects := [(cardA, {})] }
      cardA { played_on_owner_name := some "Cook" }).1 (by decide),
   (C8_arm_registry_no_duplicate_ids
      { id := "P8", row := 0, col := 0, armed_delayed_effects := [(cardA, {})] }
      cardB {}).2.1 (by decide)⟩

/-- C4: draw removes and returns the front card of a non-empty draw pile;
with an empty draw pile and a non-empty discard pile it first moves the
whole discard pile into the draw pile (discard empties, draw-pile size
equals the old discard size, for any length-preserving shuffle) and then
draws; with both piles empty it returns nothing and leaves the deck
unchanged; and the reshuffle conserves the total card count. -/
theorem C4_deck_draw_reshuffle (shuffle : List Card → List Card)
    (hshuf : ∀ l, (shuffle l).length = l.length) :
    (∀ (d : Deck) (c : Card) (rest : List Card), d.draw_pile = c :: rest →
        Deck.draw shuffle d = (some c, { d with draw_pile := rest }))
    ∧ (∀ d : Deck, d.draw_pile = [] → d.discard_pile ≠ [] →
        (reshuffle_discard_pile shuffle d).discard_pile = []
        ∧ (reshuffle_discard_pile shuffle d).draw_pile.length = d.discard_pile.length
        ∧ (Deck.draw shuffle d).1.isSome = true
        ∧ (Deck.draw shuffle d).2.draw_pile.length + 1 = d.discard_pile.length
        ∧ (Deck.draw shuffle d).2.discard_pile = [])
    ∧ (∀ d : Deck, d.draw_pile = [] → d.discard_pile = [] →
        Deck.draw shuffle d = (none, d))
    ∧ (∀ d : Deck, (reshuffle_discard_pile shuffle d).draw_pile.length
          + (reshuffle_discard_pile shuffle d).discard_pile.length
        = d.draw_pile.length + d.discard_pile.length) := by
  refine ⟨fun d c rest h => ?_, fun d h1 h2 => ?_, fun d h1 h2 => ?_, fun d => ?_⟩
  · rw [Deck.draw, if_neg (by simp [h])]
    simp [h]
  · have hre : reshuffle_discard_pile shuffle d
        = { draw_pile := shuffle (d.draw_pile ++ d.discard_pile), discard_pile := [] } := by
      rw [reshuffle_discard_pile, if_neg (by simp [h2])]
    have hlen : (shuffle (d.draw_pile ++ d.discard_pile)).length = d.discard_pile.length := by
      rw [hshuf, List.length_append, h1]
      simp
    have hne : shuffle (d.draw_pile ++ d.discard_pile) ≠ [] := by
      intro hc
      rw [hc] at hlen
      exact h2 (List.eq_nil_of_length_eq_zero hlen.symm)
    obtain ⟨x, xs, hx⟩ := List.exists_cons_of_ne_nil hne
    have hdraw : Deck.draw shuffle d
        = (some x, { draw_pile := xs, discard_pile := [] }) := by
      rw [Deck.draw, if_pos (by simp [h1]), if_neg (by simp [h2]), hre]
      rw [if_neg (by simp [hx])]
      simp [hx]
    refine ⟨by rw [hre], by rw [hre]; exact hlen, by rw [hdraw]; rfl, ?_, by rw [hdraw]⟩
    rw [hdraw]
    have : xs.length + 1 = (x :: xs).length := by simp
    rw [this, ← hx]
    exact hlen
  · rw [Deck.draw, if_pos (by simp [h1]), if_pos (by simp [h2])]
  · rw [reshuffle_discard_pile]
    by_cases h : d.discard_pile.isEmpty
    · rw [if_pos h]
    · rw [if_neg h]
      simp [hshuf]

/-- C5: an owner cell grants its benefit on every landing regardless of
prior visits this turn (Student +1 trust for players not under a
trust-gain-prevention effect, Cook +2 food, Librarian draw 1), while a
Kiosk or Basement grants its benefit (draw 1 / +2 food) at most once per
(player, cell) per turn, marking the cell visited on the first grant; the
visited-this-turn marking is reset at the own next turn start of that player.
Stated for players with no revealed agendas and no armed effects, so the
benefit deltas are exact. -/
theorem C5_cell_benefit_idempotence (sh : List Card → List Card) (deck : Deck) (p : Player)
    (r c : Int) (card0 : Card) (rest : List Card) (s0 c0 l0 : Int)
    (htr : p.trust_levels = [("Student", s0), ("Cook", c0), ("Librarian", l0)])
    (hdk : p.persistent_effects.any (fun e => e.title = "Дикий кот") = false)
    (hbs : p.persistent_effects.any (fun e => e.title = "Бешеность") = false)
    (harm : p.armed_delayed_effects = [])
    (hrev : p.revealed_persistent_agendas = [])
    (hpile : deck.draw_pile = card0 :: rest) :
    ((handle_player_landing_on_cell sh deck p (mkStudentCell r c)).2.2.trust_levels
        = [("Student", s0 + 1), ("Cook", c0), ("Librarian", l0)])
    ∧ ((handle_player_landing_on_cell sh deck p (mkCookCell r c)).2.2.food = p.food + 2)
    ∧ ((handle_player_landing_on_cell sh deck p (mkLibrarianCell r c)).2.2.cards_in_hand
        = p.cards_in_hand ++ [card0])
    ∧ ((r, c) ∈ p.visited_special_cells_this_turn →
        handle_player_landing_on_cell sh deck p (mkKiosk r c) = (none, deck, p)
        ∧ handle_player_landing_on_cell sh deck p (mkBasement r c) = (none, deck, p))
    ∧ ((r, c) ∉ p.visited_special_cells_this_turn →
        (handle_player_landing_on_cell sh deck p (mkKiosk r c)).2.2.cards_in_hand
          = p.cards_in_hand ++ [card0]
        ∧ (handle_player_landing_on_cell sh deck p
            (mkKiosk r c)).2.2.visited_special_cells_this_turn
          = p.visited_special_cells_this_turn ++ [(r, c)]
        ∧ (handle_player_landing_on_cell sh deck p (mkBasement r c)).2.2.food = p.food + 2
        ∧ (handle_player_landing_on_cell sh deck p
            (mkBasement r c)).2.2.visited_special_cells_this_turn
          = p.visited_special_cells_this_turn ++ [(r, c)])
    ∧ (∀ q : Player, (start_new_turn q).visited_special_cells_this_turn = [])
    ∧ (∀ g : GameSt, g.players ≠ [] →
        get_current_player (next_turn g)
          = start_new_turn (g.players.getD
              ((g.current_player_index + 1) % g.players.length) default_player)) := by
  refine ⟨?_, ?_, ?_, fun hv => ⟨handle_kiosk_visited sh deck p r c hv,
    handle_basement_visited sh deck p r c hv⟩, fun hv => ⟨?_, ?_, ?_, ?_⟩,
    fun q => rfl, fun g hne => ?_⟩
  · rw [handle_student_reduce sh deck p r c harm hrev]
    simp only [record_visit_trust]
    exact gain_trust_student_step _ s0 c0 l0 (by simp [htr]) (by simp [hdk]) (by simp [hbs])
  · rw [handle_cook_reduce sh deck p r c harm hrev]
    simp [gain_food]
  · rw [handle_librarian_reduce sh deck p r c harm hrev,
      draws_one sh deck _ card0 rest hpile]
    simp [add_card_to_hand]
  · rw [handle_kiosk_fresh sh deck p r c hv harm hrev,
      draws_one sh deck p card0 rest hpile]
    simp [add_card_to_hand]
  · rw [handle_kiosk_fresh sh deck p r c hv harm hrev,
      draws_one sh deck p card0 rest hpile]
    simp [record_cell_visit_this_turn, add_card_to_hand, hv]
  · rw [handle_basement_fresh sh deck p r c hv harm hrev]
    simp [gain_food]
  · rw [handle_basement_fresh sh deck p r c hv harm hrev]
    simp [record_cell_visit_this_turn, gain_food, hv]
  · have hpos : 0 < g.players.length := List.length_pos.mpr hne
    have hidx : (g.current_player_index + 1) % g.players.length < g.players.length :=
      Nat.mod_lt _ hpos
    unfold next_turn get_current_player
    simp only
    exact getD_set_self _ _ _ _ hidx

def pc5 : Player := { id := "W5", row := 5, col := 5 }
def pv5 : Player :=
  { id := "W5v", row := 1, col := 1, visited_special_cells_this_turn := [(1, 1)] }
def deck5 : Deck := { draw_pile := [cardA, cardB] }

theorem C5_cell_benefit_idempotence_witness :
    ((handle_player_landing_on_cell id deck5 pc5 (mkStudentCell 0 0)).2.2.trust_levels
        = [("Student", 0 + 1), ("Cook", 0), ("Librarian", 0)])
    ∧ handle_player_landing_on_cell id deck5 pv5 (mkKiosk 1 1) = (none, deck5, pv5)
    ∧ (handle_player_landing_on_cell id deck5 pc5
        (mkBasement 0 0)).2.2.visited_special_cells_this_turn = [(0, 0)] :=
  ⟨(C5_cell_benefit_idempotence id deck5 pc5 0 0 cardA [cardB] 0 0 0
      rfl rfl rfl rfl rfl rfl).1,
   ((C5_cell_benefit_idempotence id deck5 pv5 1 1 cardA [cardB] 0 0 0
      rfl rfl rfl rfl rfl rfl).2.2.2.1 (by decide)).1,
   ((C5_cell_benefit_idempotence id deck5 pc5 0 0 cardA [cardB] 0 0 0
      rfl rfl rfl rfl rfl rfl).2.2.2.2.1 (by decide)).2.2.2⟩

/-- C10: a player holding a persistent effect titled "Дикий кот" or
"Бешеность" gains no trust from any gain_trust call — the call is a
complete no-op — including the Student-cell trust grant on landing (stated
for players with no revealed agendas and no armed effects). -/
theorem C10_trust_gain_prevention (p : Player)
    (hprev : p.persistent_effects.any (fun e => e.title = "Дикий кот") = true
           ∨ p.persistent_effects.any (fun e => e.title = "Бешеность") = true) :
    (∀ (owner_name : String) (amount : Int), gain_trust p owner_name amount = p)
    ∧ (∀ (sh : List Card → List Card) (deck : Deck) (r c : Int),
        p.armed_delayed_effects = [] → p.revealed_persistent_agendas = [] →
        (handle_player_landing_on_cell sh deck p (mkStudentCell r c)).2.2.trust_levels
          = p.trust_levels) := by
  refine ⟨fun o a => gain_trust_noop p o a hprev, fun sh deck r c harm hrev => ?_⟩
  rw [handle_student_reduce sh deck p r c harm hrev]
  simp only [record_visit_trust]
  rw [gain_trust_noop _ _ _ (by simpa using hprev)]
  simp

def pw10 : Player := { id := "W10", row := 0, col := 0, persistent_effects := [effect_wild] }

theorem C10_trust_gain_prevention_witness :
    gain_trust pw10 "Student" 5 = pw10
    ∧ (handle_player_landing_on_cell id {} pw10 (mkStudentCell 0 0)).2.2.trust_levels
        = pw10.trust_levels :=
  ⟨(C10_trust_gain_prevention pw10 (Or.inl (by decide))).1 "Student" 5,
   (C10_trust_gain_prevention pw10 (Or.inl (by decide))).2 id {} 0 0 rfl rfl⟩

def board1 : List (List Cell) := [[mkStudentCell 0 0]]
def p1c : Player :=
  { id := "Catrick", row := 0, col := 0, trust_levels := [("Student", 9), ("Cook", 0), ("Librarian", 0)] }
def g1c : GameSt := { board := board1, players := [p1c] }

/-- C1 counterexample: a player with Student trust 9 lands on the Student
cell during the Movement phase; the trust gain reaches the win threshold
10 mid-phase, yet the remaining cell-entry logic still runs (the cell is
marked visited afterwards) and the game is not over at the end of the
movement resolution — gain_trust performs no win check, contradicting the
claimed immediate, mid-phase game end after any trust gain. -/
theorem C1_no_check_at_trust_gain_counterexample :
    (get_current_player (attempt_movement id g1c 0 0)).trust_levels
      = [("Student", 10), ("Cook", 0), ("Librarian", 0)]
    ∧ (0, 0) ∈ (get_current_player
        (attempt_movement id g1c 0 0)).visited_special_cells_this_turn
    ∧ (attempt_movement id g1c 0 0).game_over = false
    ∧ (attempt_movement id g1c 0 0).winner = none := by decide

/-- C1 (amended): the win check is a separate step — check_win_condition
reports a win and sets game_over and the winner exactly when the trust of some
owner has reached the threshold 10, and it is invoked after the Movement
phase; the movement/cell-entry logic itself never sets game_over, so a
trust gain ends the game only at the next explicit check point. -/
theorem C1_win_check_after_phases (sh : List Card → List Card) (g : GameSt) (p : Player)
    (new_r new_c : Int) :
    ((check_win_condition g p).1 = true ↔ ∃ kv ∈ p.trust_levels, kv.2 ≥ WIN_TRUST_LEVEL)
    ∧ ((check_win_condition g p).1 = true →
        (check_win_condition g p).2.game_over = true
        ∧ (check_win_condition g p).2.winner = some p)
    ∧ ((check_win_condition g p).1 = false → (check_win_condition g p).2 = g)
    ∧ ((attempt_movement sh g new_r new_c).game_over = g.game_over)
    ∧ (movement_phase sh g new_r new_c
        = (check_win_condition (attempt_movement sh g new_r new_c)
            (get_current_player (attempt_movement sh g new_r new_c))).2) := by
  refine ⟨?_, ?_, ?_, ?_, rfl⟩
  · unfold check_win_condition
    cases hf : p.trust_levels.find? (fun kv => kv.2 ≥ WIN_TRUST_LEVEL) with
    | some kv =>
      constructor
      · intro _
        refine ⟨kv, List.mem_of_find?_eq_some hf, ?_⟩
        have hkv := List.find?_some hf
        simpa using hkv
      · intro _
        rfl
    | none =>
      constructor
      · intro h
        simp at h
      · rintro ⟨kv, hmem, hge⟩
        have hfa := List.find?_eq_none.mp hf kv hmem
        simp at hfa
        exact absurd hge (not_le.mpr hfa)
  · intro h
    unfold check_win_condition at h ⊢
    cases hf : p.trust_levels.find? (fun kv => kv.2 ≥ WIN_TRUST_LEVEL) with
    | some kv => exact ⟨rfl, rfl⟩
    | none =>
      rw [hf] at h
      simp at h
  · intro h
    unfold check_win_condition at h ⊢
    cases hf : p.trust_levels.find? (fun kv => kv.2 ≥ WIN_TRUST_LEVEL) with
    | some kv =>
      rw [hf] at h
      simp at h
    | none => rfl
  · unfold attempt_movement
    cases hc : get_cell g.board new_r new_c with
    | some cell =>
      simp only [hc]
      by_cases hs : cell.symbol ≠ "."
      · rw [if_pos hs]
      · rw [if_neg hs]
    | none => simp only [hc]

def pwin : Player :=
  { id := "Wwin", row := 0, col := 0, trust_levels := [("Student", 10), ("Cook", 0), ("Librarian", 0)] }
def gwin : GameSt := { board := board1, players := [pwin] }

theorem C1_win_check_after_phases_witness :
    (check_win_condition gwin pwin).2.game_over = true
    ∧ (check_win_condition gwin pwin).2.winner = some pwin
    ∧ (attempt_movement id gwin 0 0).game_over = gwin.game_over :=
  ⟨((C1_win_check_after_phases id gwin pwin 0 0).2.1 (by decide)).1,
   ((C1_win_check_after_phases id gwin pwin 0 0).2.1 (by decide)).2,
   (C1_win_check_after_phases id gwin pwin 0 0).2.2.2.1⟩

@[simp] theorem check_win_players (g : GameSt) (p : Player) :
    (check_win_condition g p).2.players = g.players := by
  unfold check_win_condition
  split <;> rfl

@[simp] theorem check_win_index (g : GameSt) (p : Player) :
    (check_win_condition g p).2.current_player_index = g.current_player_index := by
  unfold check_win_condition
  split <;> rfl

@[simp] theorem check_win_deck (g : GameSt) (p : Player) :
    (check_win_condition g p).2.deck = g.deck := by
  unfold check_win_condition
  split <;> rfl

@[simp] theorem add_persistent_secret (p : Player) (a : AgendaCard) :
    (add_persistent_agenda_bonus p a).secret_agenda = p.secret_agenda := by
  unfold add_persistent_agenda_bonus
  split <;> rfl

/-- The player produced by a successful reveal: the post-reward player with
the secret slot cleared, routed per the persistence flags of the agenda. -/
def reveal_routed (sh : List Card → List Card) (g : GameSt) (agenda : AgendaCard) : Player :=
  let cp2 := { (apply_reward sh g.deck (get_current_player g) agenda).2 with
               secret_agenda := none }
  if agenda.is_persistent ∧ ¬ agenda.discard_after_use then
    add_persistent_agenda_bonus cp2 agenda
  else cp2

/-- C6: an agenda reveal attempt succeeds iff every objective condition
evaluates true (conjunction); on success the reward effects are applied and
the secret-agenda slot is cleared; on a failed check the whole game state —
in particular the agenda object, still held secretly — is unchanged. -/
theorem C6_agenda_reveal_conjunction (sh : List Card → List Card) (g : GameSt)
    (agenda : AgendaCard)
    (hidx : g.current_player_index < g.players.length)
    (hag : (get_current_player g).secret_agenda = some agenda) :
    (check_objective agenda (get_current_player g) g.board = true
        ↔ ∀ cond ∈ agenda.objective_conditions,
            cond.is_met (get_current_player g) g.board = true)
    ∧ (check_objective agenda (get_current_player g) g.board = false →
        handle_agenda_phase sh g true = g)
    ∧ (check_objective agenda (get_current_player g) g.board = true →
        (get_current_player (handle_agenda_phase sh g true)).secret_agenda = none
        ∧ get_current_player (handle_agenda_phase sh g true) = reveal_routed sh g agenda
        ∧ (handle_agenda_phase sh g true).deck
            = (apply_reward sh g.deck (get_current_player g) agenda).1)
    ∧ ((get_current_player (handle_agenda_phase sh g true)).secret_agenda = none
        ↔ check_objective agenda (get_current_player g) g.board = true) := by
  have hfail_id : check_objective agenda (get_current_player g) g.board = false →
      handle_agenda_phase sh g true = g := by
    intro hfail
    simp only [handle_agenda_phase, hag, hfail]
    rfl
  have hsucc_cur : check_objective agenda (get_current_player g) g.board = true →
      get_current_player (handle_agenda_phase sh g true) = reveal_routed sh g agenda := by
    intro hsucc
    simp only [handle_agenda_phase, hag, hsucc, if_true]
    unfold get_current_player
    simp only [check_win_players, check_win_index]
    exact getD_set_self _ _ _ _ hidx
  have hsucc_deck : check_objective agenda (get_current_player g) g.board = true →
      (handle_agenda_phase sh g true).deck
        = (apply_reward sh g.deck (get_current_player g) agenda).1 := by
    intro hsucc
    simp only [handle_agenda_phase, hag, hsucc, if_true, check_win_deck]
  refine ⟨by simp [check_objective, List.all_eq_true], hfail_id,
    fun hsucc => ⟨?_, hsucc_cur hsucc, hsucc_deck hsucc⟩, ?_⟩
  · rw [hsucc_cur hsucc]
    unfold reveal_routed
    split <;> simp
  · constructor
    · intro hnone
      cases hcheck : check_objective agenda (get_current_player g) g.board with
      | true => rfl
      | false =>
        rw [hfail_id hcheck] at hnone
        rw [hag] at hnone
        cases hnone
    · intro hsucc
      rw [hsucc_cur hsucc]
      unfold reveal_routed
      split <;> simp

def agenda6 : AgendaCard :=
  { title := "План", objective_conditions := [ObjCond.playerFoodAtLeast 3],
    reward_effects := [Effect.gainFoodE 1] }
def agenda6f : AgendaCard :=
  { title := "План2", objective_conditions := [ObjCond.playerFoodAtLeast 100] }
def p6 : Player := { id := "P6", row := 0, col := 0, secret_agenda := some agenda6 }
def p6f : Player := { id := "P6f", row := 0, col := 0, secret_agenda := some agenda6f }
def g6 : GameSt := { board := [[mkKiosk 0 0]], players := [p6] }
def g6f : GameSt := { board := [[mkKiosk 0 0]], players := [p6f] }

theorem C6_agenda_reveal_conjunction_witness :
    (get_current_player (handle_agenda_phase id g6 true)).secret_agenda = none
    ∧ handle_agenda_phase id g6f true = g6f :=
  ⟨((C6_agenda_reveal_conjunction id g6 agenda6 (by decide) rfl).2.2.1 (by decide)).1,
   (C6_agenda_reveal_conjunction id g6f agenda6f (by decide) rfl).2.1 (by decide)⟩

def board3 : List (List Cell) := [[mkWall 0 0]]
def p3c : Player := { id := "P3", row := 0, col := 0, active_titles := [title_ghost] }
def g3c : GameSt := { board := board3, players := [p3c] }

/-- C3 counterexample: a player holding a wall-pass title requests an
in-bounds impassable (wall) destination; the claim says the move is
accepted thanks to the wall-pass capability, but the code never consults
can_pass_through_walls during movement — the destination is rejected and
the state (hence the position) is unchanged. -/
theorem C3_wall_pass_not_consulted_counterexample :
    can_pass_through_walls p3c = true
    ∧ get_cell board3 0 0 = some (mkWall 0 0)
    ∧ move_accepted board3 0 0 = false
    ∧ attempt_movement id g3c 0 0 = g3c := by decide

/-- attempt_movement when the destination cell exists. -/
theorem attempt_movement_some (sh : List Card → List Card) (g : GameSt)
    (new_r new_c : Int) (cell : Cell)
    (hc : get_cell g.board new_r new_c = some cell) :
    attempt_movement sh g new_r new_c
      = if cell.symbol ≠ "." then
          { g with
            deck := (handle_player_landing_on_cell sh g.deck
              (update_position (get_current_player g) new_r new_c) cell).2.1,
            players := g.players.set g.current_player_index
              (handle_player_landing_on_cell sh g.deck
                (update_position (get_current_player g) new_r new_c) cell).2.2 }
        else g := by
  unfold attempt_movement
  rw [hc]

/-- attempt_movement when the destination is out of bounds. -/
theorem attempt_movement_none (sh : List Card → List Card) (g : GameSt)
    (new_r new_c : Int) (hc : get_cell g.board new_r new_c = none) :
    attempt_movement sh g new_r new_c = g := by
  unfold attempt_movement
  rw [hc]

/-- C3 (amended): a requested destination is accepted (position updated and
cell-entry handling run) if and only if it is in bounds and not an
impassable cell; the wall-pass capability is not consulted by movement, and
a rejected destination leaves the whole state (so the position) unchanged. -/
theorem C3_move_acceptance_amended (sh : List Card → List Card) (g : GameSt)
    (new_r new_c : Int) :
    (move_accepted g.board new_r new_c = false →
        attempt_movement sh g new_r new_c = g)
    ∧ (∀ cell, get_cell g.board new_r new_c = some cell → cell.symbol ≠ "." →
        attempt_movement sh g new_r new_c
          = { g with
              deck := (handle_player_landing_on_cell sh g.deck
                (update_position (get_current_player g) new_r new_c) cell).2.1,
              players := g.players.set g.current_player_index
                (handle_player_landing_on_cell sh g.deck
                  (update_position (get_current_player g) new_r new_c) cell).2.2 })
    ∧ (move_accepted g.board new_r new_c = true
        ↔ ∃ cell, get_cell g.board new_r new_c = some cell ∧ cell.symbol ≠ ".") := by
  refine ⟨?_, ?_, ?_⟩
  · intro h
    unfold move_accepted at h
    cases hc : get_cell g.board new_r new_c with
    | some cell =>
      rw [hc] at h
      rw [attempt_movement_some sh g new_r new_c cell hc, if_neg]
      simpa using h
    | none => exact attempt_movement_none sh g new_r new_c hc
  · intro cell hc hs
    rw [attempt_movement_some sh g new_r new_c cell hc, if_pos hs]
  · unfold move_accepted
    cases hc : get_cell g.board new_r new_c with
    | some cell =>
      simp only [decide_eq_true_eq]
      constructor
      · intro h
        exact ⟨cell, rfl, h⟩
      · rintro ⟨cell2, hc2, hs2⟩
        obtain rfl : cell = cell2 := Option.some.inj hc2
        exact hs2
    | none =>
      constructor
      · intro h
        simp at h
      · rintro ⟨cell2, hc2, hs2⟩
        cases hc2

def board3b : List (List Cell) := [[mkPlainCell 0 0 " "]]
def g3b : GameSt := { board := board3b, players := [p3c] }

theorem C3_move_acceptance_amended_witness :
    attempt_movement id g3c 0 0 = g3c
    ∧ (move_accepted board3b 0 0 = true
        ↔ ∃ cell, get_cell board3b 0 0 = some cell ∧ cell.symbol ≠ ".") :=
  ⟨(C3_move_acceptance_amended id g3c 0 0).1 (by decide),
   (C3_move_acceptance_amended id g3b 0 0).2.2⟩

def arm_ps : ArmParams :=
  { trigger_condition := { type := "ParticipatedInFight" },
    triggered_effects := [EffDesc.gainFood 1], self_discard_on_trigger := true }
def cardArm : Card := { id := "arm1", title := "Засада", effects := [Effect.armDelayed arm_ps] }
def p7 : Player := { id := "P7", row := 0, col := 0, armed_delayed_effects := [(cardArm, {})] }

def arm_ps0 : ArmParams :=
  { trigger_condition := { type := "ParticipatedInFight" },
    triggered_effects := [], self_discard_on_trigger := true }
def cardArm0 : Card := { id := "arm2", title := "Тень", effects := [Effect.armDelayed arm_ps0] }
def p70 : Player := { id := "P70", row := 0, col := 0, armed_delayed_effects := [(cardArm0, {})] }

/-- C7: the claim states the intended dispatch protocol — an armed effect
fires at most once per matching event occurrence, and with
self_discard_on_trigger set its registry record is removed and the source
card discarded after firing.  The code cannot carry it out: game.py line
260 reads the name GainTrustEffect, which is never imported into game.py,
so dispatching a matching event for an armed card whose triggered effect
resolves in EFFECT_REGISTRY (here GainFood 1) raises an uncaught NameError
before the effect executes and before the removal loop of lines 282-285.
At the failing input the dispatch aborts with the NameError, the triggered
GainFood never applies (food unchanged), the registry record remains, and
the card is not discarded.  The final two conjuncts show the import slip is
the sole obstacle: a matched self-discarding card with no
registry-resolvable triggered effect does reach the removal loop and is
removed and discarded. -/
theorem C7_dispatch_name_error :
    (trigger_armed_effects {} p7 "ParticipatedInFight" {}).1
      = some "NameError: name GainTrustEffect is not defined"
    ∧ (trigger_armed_effects {} p7 "ParticipatedInFight" {}).2.2.armed_delayed_effects
      = [(cardArm, {})]
    ∧ (trigger_armed_effects {} p7 "ParticipatedInFight" {}).2.2.food = p7.food
    ∧ (trigger_armed_effects {} p7 "ParticipatedInFight" {}).2.1.discard_pile = []
    ∧ (trigger_armed_effects {} p70 "ParticipatedInFight" {}).2.2.armed_delayed_effects = []
    ∧ (trigger_armed_effects {} p70 "ParticipatedInFight" {}).2.1.discard_pile = [cardArm0] := by
  refine ⟨by decide, by decide, by decide, by decide, by decide, by decide⟩

theorem C4_deck_draw_reshuffle_witness :
    Deck.draw id { draw_pile := [cardA, cardB], discard_pile := [] }
      = (some cardA, { draw_pile := [cardB], discard_pile := [] })
    ∧ (Deck.draw id { draw_pile := [], discard_pile := [cardA, cardB] }).1.isSome = true
    ∧ (Deck.draw id { draw_pile := [], discard_pile := [cardA, cardB] }).2.draw_pile.length + 1 = 2
    ∧ Deck.draw id { draw_pile := [], discard_pile := [] }
      = (none, { draw_pile := [], discard_pile := [] }) :=
  ⟨(C4_deck_draw_reshuffle id (fun l => rfl)).1
      { draw_pile := [cardA, cardB], discard_pile := [] } cardA [cardB] rfl,
   ((C4_deck_draw_reshuffle id (fun l => rfl)).2.1
      { draw_pile := [], discard_pile := [cardA, cardB] } rfl (by decide)).2.2.1,
   ((C4_deck_draw_reshuffle id (fun l => rfl)).2.1
      { draw_pile := [], discard_pile := [cardA, cardB] } rfl (by decide)).2.2.2.1,
   (C4_deck_draw_reshuffle id (fun l => rfl)).2.2.1
      { draw_pile := [], discard_pile := [] } rfl rfl⟩

end AlleyCats
